import Mathlib

/-!
Verification development for the two-party relay bot (`ai-facilitator`).

The definitions below are a shallow embedding of the JavaScript sources:
`src/llm.js` (stylizeMessage), `src/bot.js` (handleMessage and helpers),
`src/icebreaker.js` (checkAndSendIcebreaker, calculateIcebreakerInterval),
`src/feedback-utils.js` (quota, generateImprovement, applyImprovement),
`src/user-feedback.js` (processFeedbackComment) and `src/opik-feedback.js`
(shouldEvaluateAndImprove, fetchAndAverageScores).

External effects are made explicit: the Gemini call is a parameter
(`none` models a thrown exception, `some t` a response with text `t`),
`JSON.parse` is a parameter `parse`, `Math.random` a parameter `r`,
`Date` values are parameters, and the persisted configuration is threaded
as explicit state.  Every branch of the embedded functions mirrors a
branch of the source.
-/

namespace Facilitator

/-- JS `a || d` for an optional string: `null`/`undefined`/`''` are falsy. -/
def strOr (o : Option String) (d : String) : String :=
  match o with
  | some s => if s = "" then d else s
  | none => d

/-- JS `s || d` for a plain string: only `''` is falsy. -/
def jsOrS (s d : String) : String :=
  if s = "" then d else s

/-- JS truthiness of an optional string field. -/
def strTruthy (o : Option String) : Bool :=
  match o with
  | some s => decide (s ≠ "")
  | none => false

/-- JS `!id` for an optional numeric telegram id: `null` and `0` are falsy. -/
def jsNullId (o : Option Nat) : Bool :=
  match o with
  | some n => decide (n = 0)
  | none => true

/-- JS `s.trim()`: drop whitespace from both ends. -/
def jsTrim (s : String) : String :=
  String.mk (((s.data.dropWhile Char.isWhitespace).reverse.dropWhile Char.isWhitespace).reverse)

def dquote : Char := Char.ofNat 34

def squote : Char := Char.ofNat 39

def laquo : Char := Char.ofNat 171

def raquo : Char := Char.ofNat 187

/-- Index of the last occurrence of `c` in `cs`. -/
def lastIdxOf (c : Char) (cs : List Char) : Option Nat :=
  match cs.reverse.findIdx? (· = c) with
  | some k => some (cs.length - 1 - k)
  | none => none

/-- First index `≥ p` at which `c` occurs in `cs`. -/
def firstIdxFrom (c : Char) (cs : List Char) (p : Nat) : Option Nat :=
  ((cs.drop p).findIdx? (· = c)).map (· + p)

/--
The global replacement
`s.replace(/^"[\s\S]*"|'[\s\S]*'|^[«»][\s\S]*[«»]$/g, '')`
from `stylizeMessage` in `src/llm.js` line 96.

At position 0 the alternatives are tried in order: a leading double quote
matched greedily to the last double quote; a leading single quote matched
greedily to the last single quote; a guillemet-delimited whole string.
The two `^`-anchored alternatives cannot match later, so after the
position-0 match at most one further match of the middle (unanchored)
alternative remains: from the first later single quote greedily to the
last single quote of the string.
-/
def regexStripQuotes (s : String) : String :=
  let cs := s.data
  let m0 : Option Nat :=
    match cs with
    | [] => none
    | c0 :: rest =>
      if c0 = dquote then (lastIdxOf dquote rest).map (· + 2)
      else if c0 = squote then (lastIdxOf squote rest).map (· + 2)
      else if c0 = laquo ∨ c0 = raquo then
        match rest.getLast? with
        | some cl => if cl = laquo ∨ cl = raquo then some cs.length else none
        | none => none
      else none
  let e := m0.getD 0
  match firstIdxFrom squote cs e, lastIdxOf squote cs with
  | some i, some j =>
    if i < j then String.mk ((cs.drop e).take (i - e) ++ cs.drop (j + 1))
    else String.mk (cs.drop e)
  | _, _ => String.mk (cs.drop e)

/--
The data recorded by `createSimpleTrace` for one relayed message
(the fields of `src/llm.js` / `src/bot.js` traces that the spec talks
about: input `original_message`, metadata `style`, output `language`,
`result`, `success`, `fallback`).
-/
structure TraceRec where
  original : String
  style : String
  language : String
  result : String
  success : Bool
  fallback : Bool
deriving DecidableEq, Repr

/-- Result of `stylizeMessage`: the returned text, the recorded trace data,
and whether the returned `trace` field is non-null (the catch branch
returns `trace: null` even though it records a failure trace). -/
structure StylizeOut where
  text : String
  trace : TraceRec
  returnedTrace : Bool
deriving DecidableEq, Repr

/--
`stylizeMessage` from `src/llm.js` (lines 59-142).  `resp` is the Gemini
call: `none` models a thrown error (the catch branch, lines 132-141),
`some t` a response whose `.text` is `t`.  The prompt construction and the
background `shouldEvaluateAndImprove` kick-off do not affect the returned
text or the recorded trace and are modelled elsewhere.
-/
def stylizeMessage (originalMessage style recipientLanguage : String)
    (resp : Option String) : StylizeOut :=
  match resp with
  | none =>
    { text := originalMessage
      trace := { original := originalMessage, style := style,
                 language := recipientLanguage, result := originalMessage,
                 success := false, fallback := true }
      returnedTrace := false }
  | some t =>
    let st0 := jsTrim t
    let st := if st0 = "" then st0 else jsTrim (regexStripQuotes st0)
    let finalResult := if st = "" ∨ st.length < 2 then originalMessage else st
    { text := finalResult
      trace := { original := originalMessage, style := style,
                 language := recipientLanguage, result := finalResult,
                 success := decide (2 ≤ st.length),
                 fallback := decide (st.length < 2) }
      returnedTrace := true }

/-! ## Bot router model (`src/bot.js`) -/

/-- The two fixed roles (`'A'` / `'B'`). -/
inductive Role where
  | A
  | B
deriving DecidableEq, Repr

/-- One participant slot of the configuration (`config.userA` / `config.userB`). -/
structure UserCfg where
  telegramId : Option Nat
  username : Option String
  language : String
  customLanguage : String
  languageCode : Option String
deriving DecidableEq, Repr

/-- The configuration record managed by `readConfig`/`writeConfig`
(`src/opik.js` `DEFAULT_CONFIG` shape). -/
structure Config where
  language : String
  userA : UserCfg
  userB : UserCfg
  style : String
  customStyle : String
  stylizationEnabled : Bool
  icebreakerPeriodDays : Nat
deriving DecidableEq, Repr

def defaultUser : UserCfg :=
  { telegramId := none, username := none, language := "auto",
    customLanguage := "", languageCode := none }

/-- `DEFAULT_CONFIG` from `src/opik.js`. -/
def DEFAULT_CONFIG : Config :=
  { language := "en", userA := defaultUser, userB := defaultUser,
    style := "friendly", customStyle := "", stylizationEnabled := true,
    icebreakerPeriodDays := 7 }

/-- An inbound Telegram message (the fields `handleMessage` reads). -/
structure Msg where
  fromId : Nat
  username : Option String
  firstName : Option String
  languageCode : Option String
  text : Option String
deriving DecidableEq, Repr

/-- The sender display name `msg.from.username || msg.from.first_name || 'Unknown'`. -/
def registeredName (m : Msg) : String :=
  strOr m.username (strOr m.firstName "Unknown")

/-- `identifySender` from `src/bot.js`. -/
def identifySender (telegramId : Nat) (config : Config) : Option Role :=
  if config.userA.telegramId = some telegramId then some Role.A
  else if config.userB.telegramId = some telegramId then some Role.B
  else none

/-- `getRecipientId` from `src/bot.js`. -/
def getRecipientId (senderRole : Role) (config : Config) : Option Nat :=
  match senderRole with
  | Role.A => config.userB.telegramId
  | Role.B => config.userA.telegramId

def userOf (config : Config) : Role → UserCfg
  | Role.A => config.userA
  | Role.B => config.userB

def otherRole : Role → Role
  | Role.A => Role.B
  | Role.B => Role.A

/-- Line-terminator characters excluded by `.` in a JS regex. -/
def isLineTerm (c : Char) : Bool :=
  c = Char.ofNat 10 ∨ c = Char.ofNat 13 ∨ c = Char.ofNat 0x2028 ∨ c = Char.ofNat 0x2029

/-- `messageText.toLowerCase().match(/^\/feedback\s+(.+)/i)` is non-null:
after the literal `/feedback` the regex needs `k ≥ 1` whitespace characters
and then at least one non-line-terminator character. -/
def feedbackWithArg (t : String) : Bool :=
  let l := t.data.map Char.toLower
  ("/feedback".data).isPrefixOf l &&
    (let rest := l.drop 9
     let w := (rest.takeWhile Char.isWhitespace).length
     (List.range rest.length).any fun k =>
       decide (1 ≤ k) && decide (k ≤ w) && decide (k < rest.length) &&
         !(isLineTerm (rest.getD k (Char.ofNat 32))))

/-- A text enters one of the two `/feedback` handler branches of
`handleMessage` (the argument form via the regex, or the bare command). -/
def isFeedbackPath (t : String) : Bool :=
  feedbackWithArg t || t = "/feedback"

/-- The reply kinds `handleMessage` can send (the concrete localized
texts of `translations.js` are abstracted into tags; a relayed message
carries its delivered text). -/
inductive Reply where
  | welcomeA
  | welcomeB
  | alreadyRegistered
  | otherNotRegistered
  | feedbackReply
  | relay (text : String)
deriving DecidableEq, Repr

/-- Effects of one `handleMessage` invocation: the in-memory config when
the handler returns, the config passed to `writeConfig` (if called), the
single `bot.sendMessage` of the taken branch, the trace recorded for a
relayed message, and whether `stylizeMessage` was invoked.  The
`triggerIcebreakerCheck` call at the end of the relay path is modelled
separately by `checkAndSendIcebreaker`. -/
structure HandleResult where
  config : Config
  persisted : Option Config
  reply : Option (Nat × Reply)
  trace : Option TraceRec
  stylizeCalled : Bool
deriving DecidableEq, Repr

/-- Update of the sender's cached `languageCode` (`handleMessage`
lines 752-758, and 536-540 on the `/start` path): applied only while the
sender's language setting is `'auto'`, and kept in memory only. -/
def refreshLocale (config : Config) (senderRole : Role) (hint : Option String) : Config :=
  if senderRole = Role.A ∧ config.userA.language = "auto" then
    { config with userA := { config.userA with languageCode := some (strOr hint "en") } }
  else if senderRole = Role.B ∧ config.userB.language = "auto" then
    { config with userB := { config.userB with languageCode := some (strOr hint "en") } }
  else config

/-- Language resolution for one participant (`handleMessage`
lines 771-796): the explicit setting, with `'auto'` replaced by the cached
`languageCode` (default `'en'`). -/
def resolveLang (u : UserCfg) : String :=
  let l0 := jsOrS u.language "auto"
  if l0 = "auto" then strOr u.languageCode "en" else l0

/-- Registration of an unknown sender into a free slot
(`handleMessage` lines 549-583 and 711-746): the slot keeps previously
configured language settings and records id, username and locale hint. -/
def registerInto (u : UserCfg) (telegramId : Nat) (username : String)
    (hint : Option String) : UserCfg :=
  { u with telegramId := some telegramId, username := some username,
           languageCode := some (strOr hint "en") }

def noActionResult (config : Config) : HandleResult :=
  { config := config, persisted := none, reply := none, trace := none,
    stylizeCalled := false }

/-- The relay branch of `handleMessage` (lines 760-905), entered for a
registered sender with a plain text message, after the locale refresh. -/
def relayBranch (config1 : Config) (senderRole : Role) (telegramId : Nat)
    (text : String) (resp : Option String) : HandleResult :=
  let rid := getRecipientId senderRole config1
  if jsNullId rid then
    { config := config1, persisted := none,
      reply := some (telegramId, Reply.otherNotRegistered),
      trace := none, stylizeCalled := false }
  else
    let recipientRole := otherRole senderRole
    let recipientLanguage := resolveLang (userOf config1 recipientRole)
    let senderLanguage := resolveLang (userOf config1 senderRole)
    let languagesAreSame := senderLanguage = recipientLanguage
    let rid' := rid.getD 0
    if config1.stylizationEnabled = false ∧ languagesAreSame then
      let tr : TraceRec :=
        { original := text, style := "none", language := recipientLanguage,
          result := text, success := true, fallback := false }
      { config := config1, persisted := none,
        reply := some (rid', Reply.relay text), trace := some tr,
        stylizeCalled := false }
    else if config1.stylizationEnabled = false ∧ ¬languagesAreSame then
      let r := stylizeMessage text "neutral" recipientLanguage resp
      { config := config1, persisted := none,
        reply := some (rid', Reply.relay r.text), trace := some r.trace,
        stylizeCalled := true }
    else
      let r := stylizeMessage text config1.style recipientLanguage resp
      { config := config1, persisted := none,
        reply := some (rid', Reply.relay r.text), trace := some r.trace,
        stylizeCalled := true }

/--
`handleMessage` from `src/bot.js` (lines 515-910).  `store` is the
configuration returned by `readConfig` (always re-fetched from the trace
store, so mutations not passed to `writeConfig` are lost after the call);
`resp` is the Gemini response used if `stylizeMessage` is reached.  The
`/feedback` branches always reply to the sender and never touch the
configuration; their prompt-store effect is modelled by
`processFeedbackComment`.
-/
def handleMessage (store : Config) (m : Msg) (resp : Option String) : HandleResult :=
  let config := store
  let telegramId := m.fromId
  let username := strOr m.username (strOr m.firstName "Unknown")
  if m.text = some "/start" then
    match identifySender telegramId config with
    | some r =>
      let config' := refreshLocale config r m.languageCode
      { config := config', persisted := none,
        reply := some (telegramId, if r = Role.A then Reply.welcomeA else Reply.welcomeB),
        trace := none, stylizeCalled := false }
    | none =>
      if jsNullId config.userA.telegramId then
        let config' := { config with
          userA := registerInto config.userA telegramId username m.languageCode }
        { config := config', persisted := some config',
          reply := some (telegramId, Reply.welcomeA), trace := none,
          stylizeCalled := false }
      else if jsNullId config.userB.telegramId then
        let config' := { config with
          userB := registerInto config.userB telegramId username m.languageCode }
        { config := config', persisted := some config',
          reply := some (telegramId, Reply.welcomeB), trace := none,
          stylizeCalled := false }
      else
        { config := config, persisted := none,
          reply := some (telegramId, Reply.alreadyRegistered), trace := none,
          stylizeCalled := false }
  else
    match m.text with
    | none => noActionResult config
    | some text =>
      if isFeedbackPath text then
        { config := config, persisted := none,
          reply := some (telegramId, Reply.feedbackReply), trace := none,
          stylizeCalled := false }
      else if text = "" then noActionResult config
      else
        match identifySender telegramId config with
        | none =>
          if jsNullId config.userA.telegramId then
            let config' := { config with
              userA := registerInto config.userA telegramId username m.languageCode }
            { config := config', persisted := some config',
              reply := some (telegramId, Reply.welcomeA), trace := none,
              stylizeCalled := false }
          else if jsNullId config.userB.telegramId then
            let config' := { config with
              userB := registerInto config.userB telegramId username m.languageCode }
            { config := config', persisted := some config',
              reply := some (telegramId, Reply.welcomeB), trace := none,
              stylizeCalled := false }
          else
            noActionResult config
        | some senderRole =>
          relayBranch (refreshLocale config senderRole m.languageCode) senderRole telegramId text resp

/-- State transition of the persisted configuration across one inbound
message: `readConfig` fetches the stored value fresh each time, so only a
`writeConfig` call survives to the next message. -/
def stepStore (store : Config) (m : Msg) (resp : Option String) : Config :=
  ((handleMessage store m resp).persisted).getD store

/-! ## Idle scheduler (`src/icebreaker.js`) -/

/-- `calculateIcebreakerInterval` (lines 191-197): milliseconds of the
randomized threshold, with `r` modelling the `Math.random()` draw. -/
def calculateIcebreakerInterval (periodDays r : ℚ) : ℚ :=
  let minDays := max 3 (periodDays - 2)
  let maxDays := periodDays + 2
  let randomDays := minDays + r * (maxDays - minDays)
  randomDays * (24 * 60 * 60 * 1000)

/-- The due decision of `checkAndSendIcebreaker` (lines 203-219): `false`
with no recorded activity; otherwise due iff the elapsed time has reached
the freshly rolled interval.  When the result is `true` the function goes
on to send one icebreaker to each user. -/
def checkAndSendIcebreaker (lastActivityTimestamp : Option ℚ) (now periodDays r : ℚ) : Bool :=
  match lastActivityTimestamp with
  | none => false
  | some t =>
    if now - t < calculateIcebreakerInterval periodDays r then false else true

/-! ## Feedback utilities (`src/feedback-utils.js`) -/

def MAX_IMPROVEMENTS_PER_DAY : Nat := 10

def EVAL_THRESHOLD : ℚ := 7 / 10

/-- The module-global `improvements = { count, date }` record. -/
structure Quota where
  count : Nat
  date : Option String
deriving DecidableEq, Repr

/-- `checkNewDay` (lines 31-36): reset the counter when the stored date
key differs from today's. -/
def checkNewDay (today : String) (q : Quota) : Quota :=
  if q.date ≠ some today then { count := 0, date := some today } else q

/-- `canImprove` (lines 41-44), returning the updated module state next to
the boolean. -/
def canImprove (today : String) (q : Quota) : Bool × Quota :=
  let q' := checkNewDay today q
  (decide (q'.count < MAX_IMPROVEMENTS_PER_DAY), q')

/-- `recordImprovement` (lines 49-51). -/
def recordImprovement (q : Quota) : Quota :=
  { q with count := q.count + 1 }

/-- The structured `{issue, improvement}` pair; either field may be
absent or empty in a parsed JSON object. -/
structure Improvement where
  issue : Option String
  improvement : Option String
deriving DecidableEq, Repr

/-- The global replacement `result.replace(/```json?|```/g, '')` of
`generateImprovement`: at each position the alternatives are the literal
fences (with the optional `n`) in order.  The fuel is the input length,
which bounds the number of steps. -/
def stripFencesAux : Nat → List Char → List Char
  | 0, _ => []
  | _, [] => []
  | Nat.succ n, l@(c :: rest) =>
    if ("```json".data).isPrefixOf l then stripFencesAux n (l.drop 7)
    else if ("```jso".data).isPrefixOf l then stripFencesAux n (l.drop 6)
    else if ("```".data).isPrefixOf l then stripFencesAux n (l.drop 3)
    else c :: stripFencesAux n rest

def stripCodeFences (s : String) : String :=
  String.mk (stripFencesAux s.data.length s.data)

/--
`generateImprovement` (lines 83-141).  `resp` is the Gemini call (`none`
models the thrown error of the catch branch, line 137-140, which returns
`null`); `parse` models `JSON.parse` on the fence-stripped, trimmed text
(`none` = a thrown parse error); `fallback` is `String(input)` — the
comment text for the `'feedback'` trigger, `"[object Object]"` for the
`'evaluation'` trigger.  On a parse failure the function returns the
fallback pair `{issue: 'general', improvement: String(input)}`, not a
failure.
-/
def generateImprovement (ty fallback : String) (resp : Option String)
    (parse : String → Option Improvement) : Option Improvement :=
  if ty ≠ "feedback" ∧ ty ≠ "evaluation" then none
  else
    match resp with
    | none => none
    | some text =>
      let clean := jsTrim (stripCodeFences text)
      match parse clean with
      | some imp => some imp
      | none => some { issue := some "general", improvement := some fallback }

/-- The patch section appended by `applyImprovement` (lines 160-164). -/
def improvementSection (ts source : String) (i : Improvement) : String :=
  "\n\n[IMPROVED " ++ ts ++ "]\nBased on " ++ source ++ ": \"" ++
    strOr i.issue "general" ++ "\"\nAction: " ++ i.improvement.getD "" ++
    "\n[/IMPROVED]\n"

/-- `applyImprovement` (lines 154-167): appends a timestamped patch
section, or returns the prompt unchanged for a falsy improvement. -/
def applyImprovement (prompt : String) (improvement : Option Improvement)
    (source ts : String) : String :=
  match improvement with
  | none => prompt
  | some i =>
    if strTruthy i.improvement = false then prompt
    else prompt ++ improvementSection ts source i

/-! ## User feedback (`src/user-feedback.js`) -/

structure CommentEntry where
  text : String
  improvement : Option String
  timestamp : String
deriving DecidableEq, Repr

/-- A stored `PromptRecord` (`getDefaultPromptConfig` in `src/opik.js`,
restricted to the fields `processFeedbackComment` and
`shouldEvaluateAndImprove` read or write). -/
structure PromptCfg where
  prompt : Option String
  comments : List CommentEntry
  improvementCount : Nat
  lastImprovement : Option String
deriving DecidableEq, Repr

def defaultPromptCfg : PromptCfg :=
  { prompt := none, comments := [], improvementCount := 0, lastImprovement := none }

/-- JS `array.slice(-n)`. -/
def lastN (n : Nat) (l : List CommentEntry) : List CommentEntry :=
  l.drop (l.length - n)

structure FeedbackResult where
  improved : Bool
  reason : Option String
  quota : Quota
  promptCfg : PromptCfg
  llmCalls : Nat
  stored : Bool
deriving DecidableEq, Repr

/--
`processFeedbackComment` (lines 940-981 of `src/user-feedback.js`).
`today`/`ts` model the `Date` reads, `base` the
`generateBasePrompt(style, '', language)` fallback, `resp`/`parse` the
Gemini call and JSON parse inside `generateImprovement`.  `llmCalls`
counts Gemini requests, `stored` whether `updatePromptConfig` ran.
-/
def processFeedbackComment (today ts : String) (q : Quota) (comment : String)
    (cfg : PromptCfg) (base : String) (resp : Option String)
    (parse : String → Option Improvement) : FeedbackResult :=
  let c := canImprove today q
  if c.1 = false then
    { improved := false, reason := some "limit_reached", quota := c.2,
      promptCfg := cfg, llmCalls := 0, stored := false }
  else
    let currentPrompt := strOr cfg.prompt base
    match generateImprovement "feedback" comment resp parse with
    | none =>
      { improved := false, reason := some "generation_failed", quota := c.2,
        promptCfg := cfg, llmCalls := 1, stored := false }
    | some imp =>
      let improvedPrompt := applyImprovement currentPrompt (some imp) "user feedback" ts
      let comments := cfg.comments ++
        [{ text := comment, improvement := imp.improvement, timestamp := ts }]
      { improved := true, reason := none, quota := recordImprovement c.2,
        promptCfg :=
          { prompt := some improvedPrompt, comments := lastN 50 comments,
            improvementCount := cfg.improvementCount + 1,
            lastImprovement := some ts },
        llmCalls := 1, stored := true }

/-! ## Metric-triggered evaluation (`src/opik-feedback.js`) -/

def SCORE_CHECK_INTERVAL : Nat := 10

/-- A stored trace as `fetchAndAverageScores` reads it: the metadata
`message_type` and `style`, the output `language`, and the array of
numeric feedback scores (non-numeric entries of the JS array are not
representable here and are exactly the ones the source skips). -/
structure EvalTrace where
  messageType : String
  style : String
  outLanguage : String
  scores : List (String × ℚ)
deriving DecidableEq, Repr

/-- JS `hay.includes(needle)`. -/
def strContains (hay needle : String) : Bool :=
  (List.range (hay.data.length + 1)).any fun k => needle.data.isPrefixOf (hay.data.drop k)

/-- One step of the metric accumulation object of `fetchAndAverageScores`
(an insertion-ordered map from metric name to `{total, count}`). -/
def addScore (acc : List (String × ℚ × Nat)) (name : String) (v : ℚ) :
    List (String × ℚ × Nat) :=
  if acc.any (fun e => e.1 = name) then
    acc.map (fun e => if e.1 = name then (e.1, e.2.1 + v, e.2.2 + 1) else e)
  else acc ++ [(name, v, 1)]

/-- The score entries of one trace that the source keeps: a truthy name
not containing `'_reason'` (numeric-ness is by construction). -/
def keptScores (tr : EvalTrace) : List (String × ℚ) :=
  tr.scores.filter fun s => s.1 ≠ "" ∧ strContains s.1 "_reason" = false

/--
`fetchAndAverageScores` (lines 37-104): the traces fetched from the store
(the last 10 of the whole project) are filtered locally to the requested
`(style, language)` pair; `none` when no trace matches; otherwise the
per-metric averages over all kept score entries of the matching traces.
-/
def fetchAndAverageScores (style language : String) (traces : List EvalTrace) :
    Option (List (String × ℚ)) :=
  let matchingTraces := traces.filter fun tr =>
    tr.messageType = "stylize" ∧ tr.style = style ∧ tr.outLanguage = language
  if matchingTraces.isEmpty then none
  else
    let flat := matchingTraces.flatMap keptScores
    let metrics := flat.foldl (fun acc s => addScore acc s.1 s.2) []
    some (metrics.map fun e => (e.1, e.2.1 / (e.2.2 : ℚ)))

/-- Mutable state of the improvement loop at the bottom of
`shouldEvaluateAndImprove` (lines 152-170). -/
structure EvalState where
  prompt : String
  quota : Quota
  llmCalls : Nat
  applied : List String
deriving DecidableEq, Repr

/-- The `for (const {metric, score} of lowMetrics)` loop: a quota check
(`break` on failure), one `generateImprovement` call per metric
(`continue` on `null`), and otherwise a patch application plus
`recordImprovement`. -/
def evalLoop (today ts : String) (resp : String → Option String)
    (parse : String → Option Improvement) (fmt : ℚ → String) :
    List (String × ℚ) → EvalState → EvalState
  | [], st => st
  | (metric, score) :: rest, st =>
    let c := canImprove today st.quota
    if c.1 = false then { st with quota := c.2 }
    else
      match generateImprovement "evaluation" "[object Object]" (resp metric) parse with
      | none =>
        evalLoop today ts resp parse fmt rest
          { st with quota := c.2, llmCalls := st.llmCalls + 1 }
      | some imp =>
        let prompt' := applyImprovement st.prompt
          (some { issue := some ("[AvgEval " ++ metric ++ ": " ++ fmt score ++ "]"),
                  improvement := imp.improvement }) "evaluation" ts
        evalLoop today ts resp parse fmt rest
          { prompt := prompt', quota := recordImprovement c.2,
            llmCalls := st.llmCalls + 1, applied := st.applied ++ [metric] }

structure EvalResult where
  messageCount : Nat
  quota : Quota
  promptCfg : PromptCfg
  llmCalls : Nat
  cadenceHit : Bool
  limited : Bool
  stored : Bool
  appliedMetrics : List String
deriving DecidableEq, Repr

/--
`shouldEvaluateAndImprove` (lines 118-181).  `st` is the module-global
`messageCount` before the call (incremented on every call, for every
style/language pair); the evaluation branch is entered exactly when the
incremented global counter is a multiple of `SCORE_CHECK_INTERVAL`.
`resp metric` is the Gemini response for that metric's improvement
request (`none` = thrown), `fmt` models `score.toFixed(2)`.
-/
def shouldEvaluateAndImprove (st : Nat) (today ts style language : String)
    (q : Quota) (traces : List EvalTrace) (cfg : PromptCfg) (base : String)
    (resp : String → Option String) (parse : String → Option Improvement)
    (fmt : ℚ → String) : EvalResult :=
  let st' := st + 1
  let isTime := st' % SCORE_CHECK_INTERVAL = 0
  if ¬isTime then
    { messageCount := st', quota := q, promptCfg := cfg, llmCalls := 0,
      cadenceHit := false, limited := false, stored := false, appliedMetrics := [] }
  else
    let c := canImprove today q
    if c.1 = false then
      { messageCount := st', quota := c.2, promptCfg := cfg, llmCalls := 0,
        cadenceHit := true, limited := true, stored := false, appliedMetrics := [] }
    else
      match fetchAndAverageScores style language traces with
      | none =>
        { messageCount := st', quota := c.2, promptCfg := cfg, llmCalls := 0,
          cadenceHit := true, limited := false, stored := false, appliedMetrics := [] }
      | some averages =>
        let lowMetrics := averages.filter fun p => p.2 < EVAL_THRESHOLD
        if lowMetrics.isEmpty then
          { messageCount := st', quota := c.2, promptCfg := cfg, llmCalls := 0,
            cadenceHit := true, limited := false, stored := false, appliedMetrics := [] }
        else
          let currentPrompt := strOr cfg.prompt base
          let final := evalLoop today ts resp parse fmt lowMetrics
            { prompt := currentPrompt, quota := c.2, llmCalls := 0, applied := [] }
          { messageCount := st',
            quota := final.quota,
            promptCfg := { cfg with
              prompt := some final.prompt, lastImprovement := some ts,
              improvementCount := cfg.improvementCount + lowMetrics.length },
            llmCalls := final.llmCalls, cadenceHit := true, limited := false,
            stored := true, appliedMetrics := final.applied }

/-- Specification-side reading of the averaging step: the sum of the
values recorded for a metric name in a flat score list. -/
def sumFor (name : String) (flat : List (String × ℚ)) : ℚ :=
  ((flat.filter fun s => s.1 = name).map Prod.snd).sum

/-- Specification-side reading of the averaging step: how many values a
metric name has in a flat score list. -/
def countFor (name : String) (flat : List (String × ℚ)) : Nat :=
  (flat.filter fun s => s.1 = name).length

/-- The flat list of kept score entries of the traces matching a
`(style, language)` pair, as accumulated by `fetchAndAverageScores`. -/
def matchingFlat (style language : String) (traces : List EvalTrace) :
    List (String × ℚ) :=
  (traces.filter fun tr =>
    tr.messageType = "stylize" ∧ tr.style = style ∧ tr.outLanguage = language).flatMap
    keptScores

/-! ## Patch-accumulation view of the prompt store -/

/-- One successful improvement as applied to a stored prompt: its
`toISOString` timestamp, its trigger source (`"user feedback"` or
`"evaluation"`), and the accepted `{issue, improvement}` pair. -/
structure PatchStep where
  ts : String
  source : String
  imp : Improvement
deriving DecidableEq, Repr

def sectionOf (s : PatchStep) : String :=
  improvementSection s.ts s.source s.imp

/-- The stored `instructionText` after a sequence of `applyImprovement`
calls, as performed by `processFeedbackComment` and the
`shouldEvaluateAndImprove` loop. -/
def applyAll (base : String) (l : List PatchStep) : String :=
  l.foldl (fun acc s => applyImprovement acc (some s.imp) s.source s.ts) base

/-! ## Theorems -/

/--
C3: For any valid `idleThresholdDays ∈ [3,30]` and any recorded
last-activity timestamp, the due-check is false whenever the elapsed time
is below `(idleThresholdDays − 2)` days, true whenever it exceeds
`(idleThresholdDays + 2)` days (for every random draw `r ∈ [0,1]`), and
never due when no activity has been recorded.
-/
theorem icebreaker_due_window (p r now t : ℚ)
    (hp1 : 3 ≤ p) (hr0 : 0 ≤ r) (hr1 : r ≤ 1) :
    (now - t < (p - 2) * 86400000 → checkAndSendIcebreaker (some t) now p r = false) ∧
    ((p + 2) * 86400000 < now - t → checkAndSendIcebreaker (some t) now p r = true) ∧
    checkAndSendIcebreaker none now p r = false := by
  have hI : calculateIcebreakerInterval p r =
      (max 3 (p - 2) + r * (p + 2 - max 3 (p - 2))) * 86400000 := by
    unfold calculateIcebreakerInterval
    norm_num
  have hmin : p - 2 ≤ max 3 (p - 2) := le_max_right _ _
  have hgap : (0 : ℚ) ≤ p + 2 - max 3 (p - 2) := by
    rcases max_cases 3 (p - 2) with ⟨h, _⟩ | ⟨h, _⟩ <;> rw [h] <;> linarith
  have hlow : (p - 2) * 86400000 ≤ calculateIcebreakerInterval p r := by
    rw [hI]; nlinarith
  have hhigh : calculateIcebreakerInterval p r ≤ (p + 2) * 86400000 := by
    rw [hI]; nlinarith
  refine ⟨?_, ?_, rfl⟩
  · intro h
    show (if now - t < calculateIcebreakerInterval p r then false else true) = false
    rw [if_pos (by linarith)]
  · intro h
    show (if now - t < calculateIcebreakerInterval p r then false else true) = true
    rw [if_neg (by linarith)]

/-- Witness for `icebreaker_due_window` at `p = 7`, `r = 1/2`: four days of
idleness are not due, ten days are. -/
theorem icebreaker_due_window_witness :
    checkAndSendIcebreaker (some 0) (4 * 86400000) 7 (1/2) = false ∧
    checkAndSendIcebreaker (some 0) (10 * 86400000) 7 (1/2) = true := by
  constructor
  · exact (icebreaker_due_window 7 (1/2) (4 * 86400000) 0 (by norm_num) (by norm_num)
      (by norm_num)).1 (by norm_num)
  · exact (icebreaker_due_window 7 (1/2) (10 * 86400000) 0 (by norm_num) (by norm_num)
      (by norm_num)).2.1 (by norm_num)

/-- The post-processed output inside `stylizeMessage`: trim, strip the
quote regex, trim again (skipped for an empty trim). -/
def postProcessed (t : String) : String :=
  if jsTrim t = "" then jsTrim t else jsTrim (regexStripQuotes (jsTrim t))

/--
C10: if the Capability Client succeeds but the output is empty or shorter
than 2 characters after trimming and quote-stripping, `stylizeMessage`
returns the original message and the recorded trace has `fallback = true`
and `success = false`; `success` is true exactly when the processed text
has length at least 2.
-/
theorem stylize_short_output_falls_back (originalMessage style recipientLanguage t : String) :
    ((postProcessed t).length < 2 →
      (stylizeMessage originalMessage style recipientLanguage (some t)).text = originalMessage ∧
      (stylizeMessage originalMessage style recipientLanguage (some t)).trace.fallback = true ∧
      (stylizeMessage originalMessage style recipientLanguage (some t)).trace.success = false) ∧
    ((stylizeMessage originalMessage style recipientLanguage (some t)).trace.success = true ↔
      2 ≤ (postProcessed t).length) := by
  unfold stylizeMessage postProcessed
  constructor
  · intro h
    refine ⟨?_, ?_, ?_⟩ <;> simp only []
    · rw [if_pos (Or.inr h)]
    · simpa using h
    · simpa using h
  · simp

/-- Witness for `stylize_short_output_falls_back`: a fully quoted response
is stripped to the empty string, so the original message is forwarded. -/
theorem stylize_short_output_falls_back_witness :
    (stylizeMessage "hi" "friendly" "en" (some "\"Hello there!\"")).text = "hi" ∧
    (stylizeMessage "hi" "friendly" "en" (some "\"Hello there!\"")).trace.fallback = true ∧
    (stylizeMessage "hi" "friendly" "en" (some "\"Hello there!\"")).trace.success = false :=
  (stylize_short_output_falls_back "hi" "friendly" "en" "\"Hello there!\"").1 (by decide)

/-- For a plain (non-command, non-empty) text message from a registered
sender, `handleMessage` is the locale refresh followed by the relay
branch. -/
theorem handleMessage_eq_relayBranch (store : Config) (m : Msg) (resp : Option String)
    (text : String) (r : Role)
    (htext : m.text = some text) (hstart : text ≠ "/start")
    (hfb : isFeedbackPath text = false) (hne : text ≠ "")
    (hid : identifySender m.fromId store = some r) :
    handleMessage store m resp =
      relayBranch (refreshLocale store r m.languageCode) r m.fromId text resp := by
  unfold handleMessage
  simp [htext, hstart, hfb, hne, hid]

/-- Every branch of the relay path leaves the in-memory configuration at
the refreshed value and performs no `writeConfig`. -/
theorem relayBranch_state (config1 : Config) (r : Role) (tid : Nat) (text : String)
    (resp : Option String) :
    (relayBranch config1 r tid text resp).config = config1 ∧
    (relayBranch config1 r tid text resp).persisted = none := by
  refine ⟨?_, ?_⟩ <;>
    (unfold relayBranch; dsimp only; repeat' split <;> try rfl)

/--
C1: if the Capability Client throws during the transform of a relayed
message, the recipient still receives the original text unchanged, the
recorded trace has `success = false` (and `fallback = true`), and no
message is sent to the sending user.
-/
theorem capability_failure_fallback (store : Config) (m : Msg)
    (text : String) (r : Role) (rid : Nat)
    (htext : m.text = some text) (hstart : text ≠ "/start")
    (hfb : isFeedbackPath text = false) (hne : text ≠ "")
    (hid : identifySender m.fromId store = some r)
    (hrid : getRecipientId r (refreshLocale store r m.languageCode) = some rid)
    (hrid0 : rid ≠ 0)
    (hdiff : rid ≠ m.fromId)
    (hbranch : ¬((refreshLocale store r m.languageCode).stylizationEnabled = false ∧
      resolveLang (userOf (refreshLocale store r m.languageCode) r) =
        resolveLang (userOf (refreshLocale store r m.languageCode) (otherRole r)))) :
    (handleMessage store m none).reply = some (rid, Reply.relay text) ∧
    (∃ tr, (handleMessage store m none).trace = some tr ∧
      tr.success = false ∧ tr.fallback = true ∧ tr.result = text ∧ tr.original = text) ∧
    (∀ p ∈ (handleMessage store m none).reply, p.1 ≠ m.fromId) := by
  rw [handleMessage_eq_relayBranch store m none text r htext hstart hfb hne hid]
  set config1 := refreshLocale store r m.languageCode with hc1
  have hnull : jsNullId (some rid) = false := by
    simp [jsNullId, hrid0]
  unfold relayBranch
  dsimp only
  rw [hrid, hnull]
  simp only [Bool.false_eq_true, if_false]
  rw [if_neg hbranch]
  split
  · refine ⟨rfl, ⟨_, rfl, rfl, rfl, rfl, rfl⟩, ?_⟩
    intro p hp
    simp only [Option.mem_def, Option.some.injEq] at hp
    rw [← hp]
    exact hdiff
  · refine ⟨rfl, ⟨_, rfl, rfl, rfl, rfl, rfl⟩, ?_⟩
    intro p hp
    simp only [Option.mem_def, Option.some.injEq] at hp
    rw [← hp]
    exact hdiff

/-- Witness for `capability_failure_fallback`: both users registered,
stylization enabled, the Gemini call throws, and user B still receives
the original `"hello"`. -/
theorem capability_failure_fallback_witness :
    (handleMessage
      { DEFAULT_CONFIG with
        userA := { defaultUser with telegramId := some 1, username := some "a" },
        userB := { defaultUser with telegramId := some 2, username := some "b" } }
      { fromId := 1, username := some "a", firstName := none,
        languageCode := some "en", text := some "hello" } none).reply =
      some (2, Reply.relay "hello") := by
  have h := capability_failure_fallback
    { DEFAULT_CONFIG with
      userA := { defaultUser with telegramId := some 1, username := some "a" },
      userB := { defaultUser with telegramId := some 2, username := some "b" } }
    { fromId := 1, username := some "a", firstName := none,
      languageCode := some "en", text := some "hello" }
    "hello" Role.A 2 rfl (by decide) (by decide) (by decide) (by decide)
    (by decide) (by decide) (by decide) (by decide)
  exact h.1

/--
C8: with stylization disabled and equal resolved languages, the recipient
receives exactly the sender's original text, no Capability Client call is
made, and a trace with `style = "none"` and `success = true` is still
recorded.
-/
theorem passthrough_when_disabled_same_language (store : Config) (m : Msg)
    (resp : Option String) (text : String) (r : Role) (rid : Nat)
    (htext : m.text = some text) (hstart : text ≠ "/start")
    (hfb : isFeedbackPath text = false) (hne : text ≠ "")
    (hid : identifySender m.fromId store = some r)
    (hrid : getRecipientId r (refreshLocale store r m.languageCode) = some rid)
    (hrid0 : rid ≠ 0)
    (hdis : (refreshLocale store r m.languageCode).stylizationEnabled = false)
    (hsame : resolveLang (userOf (refreshLocale store r m.languageCode) r) =
      resolveLang (userOf (refreshLocale store r m.languageCode) (otherRole r))) :
    (handleMessage store m resp).reply = some (rid, Reply.relay text) ∧
    (handleMessage store m resp).trace =
      some { original := text, style := "none",
             language := resolveLang (userOf (refreshLocale store r m.languageCode) (otherRole r)),
             result := text, success := true, fallback := false } ∧
    (handleMessage store m resp).stylizeCalled = false := by
  rw [handleMessage_eq_relayBranch store m resp text r htext hstart hfb hne hid]
  set config1 := refreshLocale store r m.languageCode with hc1
  have hnull : jsNullId (some rid) = false := by
    simp [jsNullId, hrid0]
  unfold relayBranch
  dsimp only
  rw [hrid, hnull]
  simp only [Bool.false_eq_true, if_false]
  rw [if_pos ⟨hdis, hsame⟩]
  exact ⟨rfl, rfl, rfl⟩

/-- Witness for `passthrough_when_disabled_same_language`: both users on
`en`, stylization off, `"hi"` is delivered verbatim with a
`style = "none"`, `success = true` trace. -/
theorem passthrough_when_disabled_same_language_witness :
    (handleMessage
      { DEFAULT_CONFIG with
        stylizationEnabled := false,
        userA := { defaultUser with telegramId := some 1, username := some "a", language := "en" },
        userB := { defaultUser with telegramId := some 2, username := some "b", language := "en" } }
      { fromId := 1, username := some "a", firstName := none,
        languageCode := some "en", text := some "hi" } none).reply =
      some (2, Reply.relay "hi") ∧
    (handleMessage
      { DEFAULT_CONFIG with
        stylizationEnabled := false,
        userA := { defaultUser with telegramId := some 1, username := some "a", language := "en" },
        userB := { defaultUser with telegramId := some 2, username := some "b", language := "en" } }
      { fromId := 1, username := some "a", firstName := none,
        languageCode := some "en", text := some "hi" } none).trace =
      some { original := "hi", style := "none", language := "en",
             result := "hi", success := true, fallback := false } := by
  have h := passthrough_when_disabled_same_language
    { DEFAULT_CONFIG with
      stylizationEnabled := false,
      userA := { defaultUser with telegramId := some 1, username := some "a", language := "en" },
      userB := { defaultUser with telegramId := some 2, username := some "b", language := "en" } }
    { fromId := 1, username := some "a", firstName := none,
      languageCode := some "en", text := some "hi" } none
    "hi" Role.A 2 rfl (by decide) (by decide) (by decide) (by decide)
    (by decide) (by decide) (by decide) (by decide)
  exact ⟨h.1, h.2.1⟩

/--
C9 (amended): for a plain text message from a registered sender whose
language preference is `'auto'`, the in-process configuration used for
this relay carries the refreshed locale hint, but nothing is persisted,
so the next `readConfig` does not see the refresh; once the preference is
an explicit code or `'custom'`, the message changes no participant field
at all.
-/
theorem locale_refresh_in_memory_only (store : Config) (m : Msg)
    (resp : Option String) (text : String) (r : Role)
    (htext : m.text = some text) (hstart : text ≠ "/start")
    (hfb : isFeedbackPath text = false) (hne : text ≠ "")
    (hid : identifySender m.fromId store = some r) :
    ((userOf store r).language = "auto" →
      (userOf (handleMessage store m resp).config r).languageCode =
        some (strOr m.languageCode "en") ∧
      (handleMessage store m resp).persisted = none ∧
      stepStore store m resp = store) ∧
    ((userOf store r).language ≠ "auto" →
      (handleMessage store m resp).config = store ∧
      (handleMessage store m resp).persisted = none ∧
      stepStore store m resp = store) := by
  rw [stepStore, handleMessage_eq_relayBranch store m resp text r htext hstart hfb hne hid]
  obtain ⟨hcfg, hpers⟩ := relayBranch_state (refreshLocale store r m.languageCode) r m.fromId text resp
  rw [hcfg, hpers]
  constructor
  · intro hauto
    refine ⟨?_, rfl, rfl⟩
    cases r
    · simp only [userOf] at hauto ⊢
      rw [refreshLocale, if_pos ⟨rfl, hauto⟩]
    · simp only [userOf] at hauto ⊢
      rw [refreshLocale]
      rw [if_neg (by simp), if_pos ⟨rfl, hauto⟩]
  · intro hnauto
    refine ⟨?_, rfl, rfl⟩
    cases r
    · simp only [userOf] at hnauto
      rw [refreshLocale, if_neg (by simp [hnauto])]
      rw [if_neg (by simp)]
    · simp only [userOf] at hnauto
      rw [refreshLocale, if_neg (by simp)]
      rw [if_neg (by simp [hnauto])]

/-- Witness for `locale_refresh_in_memory_only`: an `'auto'` sender's
hint `ru` is visible in the in-process config and nothing is persisted;
an explicit-preference sender's message changes nothing. -/
theorem locale_refresh_in_memory_only_witness :
    ((userOf (handleMessage
        { DEFAULT_CONFIG with
          userA := { defaultUser with telegramId := some 1, language := "auto" },
          userB := { defaultUser with telegramId := some 2, language := "en" } }
        { fromId := 1, username := some "a", firstName := none,
          languageCode := some "ru", text := some "hello" } (some "Bonjour!")).config
      Role.A).languageCode = some "ru") ∧
    ((handleMessage
        { DEFAULT_CONFIG with
          userA := { defaultUser with telegramId := some 1, language := "auto" },
          userB := { defaultUser with telegramId := some 2, language := "en" } }
        { fromId := 1, username := some "a", firstName := none,
          languageCode := some "ru", text := some "hello" } (some "Bonjour!")).persisted = none) := by
  have h := (locale_refresh_in_memory_only
    { DEFAULT_CONFIG with
      userA := { defaultUser with telegramId := some 1, language := "auto" },
      userB := { defaultUser with telegramId := some 2, language := "en" } }
    { fromId := 1, username := some "a", firstName := none,
      languageCode := some "ru", text := some "hello" } (some "Bonjour!")
    "hello" Role.A rfl (by decide) (by decide) (by decide) (by decide)).1 (by decide)
  exact ⟨h.1, h.2.1⟩

/-- C9 counterexample: the refresh of an `'auto'` sender's locale is not
seen by a later relay.  User A (preference `'auto'`, persisted hint `en`)
sends a message with hint `ru`; the refresh lands in memory only, so when
user B later sends a message, the relay resolves A's language as `en`,
not `ru`, refuting "a later relay resolves the updated locale". -/
theorem locale_refresh_lost_counterexample :
    (let store : Config :=
      ⟨"en", ⟨some 1, some "a", "auto", "", some "en"⟩,
        ⟨some 2, some "b", "en", "", some "en"⟩, "friendly", "", true, 7⟩
     let m1 : Msg := ⟨1, some "a", none, some "ru", some "hello"⟩
     let m2 : Msg := ⟨2, some "b", none, some "en", some "yo"⟩
     let r1 := handleMessage store m1 (some "Hello there")
     let s1 := stepStore store m1 (some "Hello there")
     let r2 := handleMessage s1 m2 (some "Hey you")
     (userOf r1.config Role.A).languageCode = some "ru" ∧
     r1.persisted = none ∧
     s1 = store ∧
     r2.trace.map TraceRec.language = some "en" ∧
     r2.trace.map TraceRec.language ≠ some "ru") := by
  decide

theorem jsNullId_none : jsNullId none = true := rfl

theorem jsNullId_some (n : Nat) : jsNullId (some n) = decide (n = 0) := rfl

/-- A plain text message from an unknown identity registers it into a
free `userA` slot, persists the configuration, and replies with the
first-user welcome. -/
theorem handleMessage_register_A (store : Config) (m : Msg) (resp : Option String)
    (text : String)
    (htext : m.text = some text) (hstart : text ≠ "/start")
    (hfb : isFeedbackPath text = false) (hne : text ≠ "")
    (hA : store.userA.telegramId = none)
    (hBne : store.userB.telegramId ≠ some m.fromId) :
    handleMessage store m resp =
      { config := { store with
          userA := registerInto store.userA m.fromId (registeredName m) m.languageCode },
        persisted := some { store with
          userA := registerInto store.userA m.fromId (registeredName m) m.languageCode },
        reply := some (m.fromId, Reply.welcomeA), trace := none,
        stylizeCalled := false } := by
  unfold handleMessage
  simp [htext, hstart, hfb, hne, identifySender, hA, hBne, jsNullId_none, registeredName]

/-- A plain text message from an unknown identity registers it into the
free `userB` slot when `userA` is taken. -/
theorem handleMessage_register_B (store : Config) (m : Msg) (resp : Option String)
    (text : String)
    (htext : m.text = some text) (hstart : text ≠ "/start")
    (hfb : isFeedbackPath text = false) (hne : text ≠ "")
    (hAne : store.userA.telegramId ≠ some m.fromId)
    (hAfull : jsNullId store.userA.telegramId = false)
    (hB : store.userB.telegramId = none) :
    handleMessage store m resp =
      { config := { store with
          userB := registerInto store.userB m.fromId (registeredName m) m.languageCode },
        persisted := some { store with
          userB := registerInto store.userB m.fromId (registeredName m) m.languageCode },
        reply := some (m.fromId, Reply.welcomeB), trace := none,
        stylizeCalled := false } := by
  unfold handleMessage
  simp [htext, hstart, hfb, hne, identifySender, hAne, hAfull, hB, jsNullId_none, registeredName]

/-- A plain text message from an unknown identity when both slots are
taken is ignored: no state change and no reply at all. -/
theorem handleMessage_ignore_third (store : Config) (m : Msg) (resp : Option String)
    (text : String)
    (htext : m.text = some text) (hstart : text ≠ "/start")
    (hfb : isFeedbackPath text = false) (hne : text ≠ "")
    (hAne : store.userA.telegramId ≠ some m.fromId)
    (hBne : store.userB.telegramId ≠ some m.fromId)
    (hAfull : jsNullId store.userA.telegramId = false)
    (hBfull : jsNullId store.userB.telegramId = false) :
    handleMessage store m resp = noActionResult store := by
  unfold handleMessage
  simp [htext, hstart, hfb, hne, identifySender, hAne, hBne, hAfull, hBfull]

/--
C2 (amended): starting from a configuration with both slots free, the
first identity to send a plain text message is registered as `userA`
(role First) and the second distinct identity as `userB` (role Second);
a plain text message from a third distinct identity causes no
registration or role reassignment and is silently ignored — no reply
(in particular not the other-party-not-registered notice) is sent.
-/
theorem registration_order_and_third_identity
    (store : Config) (m1 m2 m3 : Msg) (resp1 resp2 resp3 : Option String)
    (t1 t2 t3 : String)
    (ht1 : m1.text = some t1) (hs1 : t1 ≠ "/start")
    (hf1 : isFeedbackPath t1 = false) (he1 : t1 ≠ "")
    (ht2 : m2.text = some t2) (hs2 : t2 ≠ "/start")
    (hf2 : isFeedbackPath t2 = false) (he2 : t2 ≠ "")
    (ht3 : m3.text = some t3) (hs3 : t3 ≠ "/start")
    (hf3 : isFeedbackPath t3 = false) (he3 : t3 ≠ "")
    (hA : store.userA.telegramId = none) (hB : store.userB.telegramId = none)
    (h10 : m1.fromId ≠ 0) (h20 : m2.fromId ≠ 0)
    (hd12 : m1.fromId ≠ m2.fromId) (hd13 : m3.fromId ≠ m1.fromId)
    (hd23 : m3.fromId ≠ m2.fromId) :
    (handleMessage store m1 resp1).reply = some (m1.fromId, Reply.welcomeA) ∧
    (stepStore store m1 resp1).userA.telegramId = some m1.fromId ∧
    (stepStore store m1 resp1).userB.telegramId = none ∧
    (handleMessage (stepStore store m1 resp1) m2 resp2).reply =
      some (m2.fromId, Reply.welcomeB) ∧
    (stepStore (stepStore store m1 resp1) m2 resp2).userA.telegramId = some m1.fromId ∧
    (stepStore (stepStore store m1 resp1) m2 resp2).userB.telegramId = some m2.fromId ∧
    (handleMessage (stepStore (stepStore store m1 resp1) m2 resp2) m3 resp3).persisted = none ∧
    (handleMessage (stepStore (stepStore store m1 resp1) m2 resp2) m3 resp3).config =
      stepStore (stepStore store m1 resp1) m2 resp2 ∧
    (handleMessage (stepStore (stepStore store m1 resp1) m2 resp2) m3 resp3).reply = none := by
  have hBne1 : store.userB.telegramId ≠ some m1.fromId := by
    rw [hB]; exact fun h => Option.noConfusion h
  have e1 := handleMessage_register_A store m1 resp1 t1 ht1 hs1 hf1 he1 hA hBne1
  have hstep1 : stepStore store m1 resp1 =
      { store with
        userA := registerInto store.userA m1.fromId (registeredName m1) m1.languageCode } := by
    rw [stepStore, e1]
    rfl
  have hs1A : (stepStore store m1 resp1).userA.telegramId = some m1.fromId := by
    rw [hstep1]; rfl
  have hs1B : (stepStore store m1 resp1).userB.telegramId = none := by
    rw [hstep1]; exact hB
  have hAne2 : (stepStore store m1 resp1).userA.telegramId ≠ some m2.fromId := by
    rw [hs1A]
    intro h
    exact hd12 (Option.some.inj h)
  have hAfull2 : jsNullId (stepStore store m1 resp1).userA.telegramId = false := by
    rw [hs1A]; simp [jsNullId, h10]
  have e2 := handleMessage_register_B (stepStore store m1 resp1) m2 resp2 t2
    ht2 hs2 hf2 he2 hAne2 hAfull2 hs1B
  have hstep2 : stepStore (stepStore store m1 resp1) m2 resp2 =
      { (stepStore store m1 resp1) with
        userB := registerInto (stepStore store m1 resp1).userB m2.fromId (registeredName m2) m2.languageCode } := by
    rw [stepStore, e2]
    rfl
  have hs2A : (stepStore (stepStore store m1 resp1) m2 resp2).userA.telegramId =
      some m1.fromId := by
    rw [hstep2]; exact hs1A
  have hs2B : (stepStore (stepStore store m1 resp1) m2 resp2).userB.telegramId =
      some m2.fromId := by
    rw [hstep2]; rfl
  have hAne3 : (stepStore (stepStore store m1 resp1) m2 resp2).userA.telegramId ≠
      some m3.fromId := by
    rw [hs2A]
    intro h
    exact hd13 (Option.some.inj h).symm
  have hBne3 : (stepStore (stepStore store m1 resp1) m2 resp2).userB.telegramId ≠
      some m3.fromId := by
    rw [hs2B]
    intro h
    exact hd23 (Option.some.inj h).symm
  have hAfull3 : jsNullId (stepStore (stepStore store m1 resp1) m2 resp2).userA.telegramId
      = false := by
    rw [hs2A]; simp [jsNullId, h10]
  have hBfull3 : jsNullId (stepStore (stepStore store m1 resp1) m2 resp2).userB.telegramId
      = false := by
    rw [hs2B]; simp [jsNullId, h20]
  have e3 := handleMessage_ignore_third (stepStore (stepStore store m1 resp1) m2 resp2)
    m3 resp3 t3 ht3 hs3 hf3 he3 hAne3 hBne3 hAfull3 hBfull3
  refine ⟨?_, hs1A, hs1B, ?_, hs2A, hs2B, ?_, ?_, ?_⟩
  · rw [e1]
  · rw [e2]
  · rw [e3]; rfl
  · rw [e3]; rfl
  · rw [e3]; rfl

/-- Witness for `registration_order_and_third_identity` with identities
1, 2, 3 and plain texts. -/
theorem registration_order_and_third_identity_witness :
    (handleMessage DEFAULT_CONFIG ⟨1, some "a", none, some "en", some "hello"⟩
      none).reply = some (1, Reply.welcomeA) ∧
    (handleMessage (stepStore DEFAULT_CONFIG ⟨1, some "a", none, some "en", some "hello"⟩ none)
      ⟨2, some "b", none, some "en", some "hey"⟩ none).reply = some (2, Reply.welcomeB) ∧
    (handleMessage (stepStore (stepStore DEFAULT_CONFIG
        ⟨1, some "a", none, some "en", some "hello"⟩ none)
        ⟨2, some "b", none, some "en", some "hey"⟩ none)
      ⟨3, some "c", none, some "en", some "hi all"⟩ none).reply = none := by
  have h := registration_order_and_third_identity DEFAULT_CONFIG
    ⟨1, some "a", none, some "en", some "hello"⟩
    ⟨2, some "b", none, some "en", some "hey"⟩
    ⟨3, some "c", none, some "en", some "hi all"⟩
    none none none "hello" "hey" "hi all"
    rfl (by decide) (by decide) (by decide)
    rfl (by decide) (by decide) (by decide)
    rfl (by decide) (by decide) (by decide)
    rfl rfl (by decide) (by decide) (by decide) (by decide) (by decide)
  exact ⟨h.1, h.2.2.2.1, h.2.2.2.2.2.2.2.2⟩

/-- C2 counterexample: with both slots taken (ids 1 and 2), a plain
message from identity 3 produces no reply at all — in particular the
sender is not told that the other party is not registered, refuting the
claim's `OtherPartyNotRegistered` handling for a third identity. -/
theorem third_identity_silent_counterexample :
    (let full : Config :=
      ⟨"en", ⟨some 1, some "a", "auto", "", some "en"⟩,
        ⟨some 2, some "b", "auto", "", some "en"⟩, "friendly", "", true, 7⟩
     let r := handleMessage full ⟨3, some "c", none, some "en", some "hello"⟩ none
     r.reply = none ∧
     r.reply ≠ some (3, Reply.otherNotRegistered) ∧
     r.persisted = none ∧ r.config = full) := by
  decide

theorem processFeedbackComment_limit (today ts comment base : String) (q : Quota)
    (cfg : PromptCfg) (resp : Option String) (parse : String → Option Improvement)
    (h : (canImprove today q).1 = false) :
    processFeedbackComment today ts q comment cfg base resp parse =
      { improved := false, reason := some "limit_reached",
        quota := (canImprove today q).2, promptCfg := cfg, llmCalls := 0,
        stored := false } := by
  unfold processFeedbackComment
  rw [if_pos h]

theorem processFeedbackComment_genFailed (today ts comment base : String) (q : Quota)
    (cfg : PromptCfg) (resp : Option String) (parse : String → Option Improvement)
    (hc : ¬((canImprove today q).1 = false))
    (hgen : generateImprovement "feedback" comment resp parse = none) :
    processFeedbackComment today ts q comment cfg base resp parse =
      { improved := false, reason := some "generation_failed",
        quota := (canImprove today q).2, promptCfg := cfg, llmCalls := 1,
        stored := false } := by
  unfold processFeedbackComment
  rw [if_neg hc, hgen]

theorem processFeedbackComment_success (today ts comment base : String) (q : Quota)
    (cfg : PromptCfg) (resp : Option String) (parse : String → Option Improvement)
    (imp : Improvement)
    (hc : ¬((canImprove today q).1 = false))
    (hgen : generateImprovement "feedback" comment resp parse = some imp) :
    processFeedbackComment today ts q comment cfg base resp parse =
      { improved := true, reason := none,
        quota := recordImprovement (canImprove today q).2,
        promptCfg :=
          { prompt := some (applyImprovement (strOr cfg.prompt base) (some imp) "user feedback" ts),
            comments := lastN 50 (cfg.comments ++ [⟨comment, imp.improvement, ts⟩]),
            improvementCount := cfg.improvementCount + 1,
            lastImprovement := some ts },
        llmCalls := 1, stored := true } := by
  unfold processFeedbackComment
  rw [if_neg hc, hgen]

theorem shouldEvaluateAndImprove_limit (st : Nat) (today ts style language base : String)
    (q : Quota) (traces : List EvalTrace) (cfg : PromptCfg)
    (resp : String → Option String) (parse : String → Option Improvement)
    (fmt : ℚ → String)
    (hst : (st + 1) % SCORE_CHECK_INTERVAL = 0)
    (hc : (canImprove today q).1 = false) :
    shouldEvaluateAndImprove st today ts style language q traces cfg base resp parse fmt =
      { messageCount := st + 1, quota := (canImprove today q).2, promptCfg := cfg,
        llmCalls := 0, cadenceHit := true, limited := true, stored := false,
        appliedMetrics := [] } := by
  unfold shouldEvaluateAndImprove
  rw [if_neg (not_not_intro hst), if_pos hc]

/--
C4: with the daily maximum of improvements consumed for today, both the
user-comment and the metric-signal entry point short-circuit with a
limit-reached result and make no Capability Client call and no store
write; a successful improvement raises the shared counter by exactly one;
and the first check observing a different calendar day resets the counter
to zero.
-/
theorem daily_quota_short_circuit (today ts comment base style language : String)
    (q : Quota) (cfg : PromptCfg) (resp : Option String)
    (parse : String → Option Improvement) (st : Nat) (traces : List EvalTrace)
    (resp2 : String → Option String) (fmt : ℚ → String)
    (hdate : q.date = some today)
    (hcount : MAX_IMPROVEMENTS_PER_DAY ≤ q.count) :
    ((processFeedbackComment today ts q comment cfg base resp parse).improved = false ∧
     (processFeedbackComment today ts q comment cfg base resp parse).reason =
       some "limit_reached" ∧
     (processFeedbackComment today ts q comment cfg base resp parse).llmCalls = 0 ∧
     (processFeedbackComment today ts q comment cfg base resp parse).promptCfg = cfg ∧
     (processFeedbackComment today ts q comment cfg base resp parse).stored = false) ∧
    ((st + 1) % SCORE_CHECK_INTERVAL = 0 →
      (shouldEvaluateAndImprove st today ts style language q traces cfg base
        resp2 parse fmt).limited = true ∧
      (shouldEvaluateAndImprove st today ts style language q traces cfg base
        resp2 parse fmt).llmCalls = 0 ∧
      (shouldEvaluateAndImprove st today ts style language q traces cfg base
        resp2 parse fmt).stored = false ∧
      (shouldEvaluateAndImprove st today ts style language q traces cfg base
        resp2 parse fmt).promptCfg = cfg) ∧
    (∀ tomorrow, tomorrow ≠ today → (checkNewDay tomorrow q).count = 0) ∧
    (∀ q2, (processFeedbackComment today ts q2 comment cfg base resp parse).improved = true →
      (processFeedbackComment today ts q2 comment cfg base resp parse).quota.count =
        (checkNewDay today q2).count + 1) := by
  have hq' : checkNewDay today q = q := by
    unfold checkNewDay
    rw [if_neg (by simp [hdate])]
  have hcan : (canImprove today q).1 = false := by
    unfold canImprove
    dsimp only
    rw [hq']
    simp only [decide_eq_false_iff_not, not_lt]
    exact hcount
  refine ⟨?_, ?_, ?_, ?_⟩
  · rw [processFeedbackComment_limit today ts comment base q cfg resp parse hcan]
    exact ⟨rfl, rfl, rfl, rfl, rfl⟩
  · intro hst
    rw [shouldEvaluateAndImprove_limit st today ts style language base q traces cfg
      resp2 parse fmt hst hcan]
    exact ⟨rfl, rfl, rfl, rfl⟩
  · intro tomorrow hne
    unfold checkNewDay
    rw [if_pos (by simp [hdate]; exact fun h => hne h.symm)]
  · intro q2 himp
    by_cases hc2 : (canImprove today q2).1 = false
    · rw [processFeedbackComment_limit today ts comment base q2 cfg resp parse hc2] at himp
      exact absurd himp (by simp)
    · cases hgen : generateImprovement "feedback" comment resp parse with
      | none =>
        rw [processFeedbackComment_genFailed today ts comment base q2 cfg resp parse
          hc2 hgen] at himp
        exact absurd himp (by simp)
      | some imp =>
        rw [processFeedbackComment_success today ts comment base q2 cfg resp parse
          imp hc2 hgen]
        rfl

/-- Witness for `daily_quota_short_circuit` at a quota of 10 used today:
the next user comment is rejected without a Capability Client call, and a
new day resets the counter. -/
theorem daily_quota_short_circuit_witness :
    (processFeedbackComment "2026-10-11" "T" ⟨10, some "2026-10-11"⟩ "warmer"
      defaultPromptCfg "BASE" (some "x") (fun _ => none)).reason = some "limit_reached" ∧
    (processFeedbackComment "2026-10-11" "T" ⟨10, some "2026-10-11"⟩ "warmer"
      defaultPromptCfg "BASE" (some "x") (fun _ => none)).llmCalls = 0 ∧
    (shouldEvaluateAndImprove 9 "2026-10-11" "T" "friendly" "en" ⟨10, some "2026-10-11"⟩
      [] defaultPromptCfg "BASE" (fun _ => none) (fun _ => none) (fun _ => "")).limited = true ∧
    (checkNewDay "2026-10-12" ⟨10, some "2026-10-11"⟩).count = 0 := by
  have h := daily_quota_short_circuit "2026-10-11" "T" "warmer" "BASE" "friendly" "en"
    ⟨10, some "2026-10-11"⟩ defaultPromptCfg (some "x") (fun _ => none) 9 []
    (fun _ => none) (fun _ => "") rfl (by decide)
  exact ⟨h.1.2.1, h.1.2.2.1, (h.2.1 (by decide)).1, h.2.2.1 "2026-10-12" (by decide)⟩

/--
C6 (amended): if the Capability Client call throws, the attempt returns a
`generation_failed` result and the stored prompt state is unchanged; but
if the call succeeds with output that cannot be parsed as the structured
pair, `generateImprovement` falls back to
`{issue: 'general', improvement: String(input)}` and a patch section
built from the raw trigger input is appended — the attempt does not
return `GenerationFailed` and does mutate stored state.
-/
theorem generation_failure_vs_unparsable (today ts comment base : String)
    (q : Quota) (cfg : PromptCfg) (parse : String → Option Improvement)
    (hcnt : (checkNewDay today q).count < MAX_IMPROVEMENTS_PER_DAY)
    (hcomment : comment ≠ "") :
    ((processFeedbackComment today ts q comment cfg base none parse).reason =
        some "generation_failed" ∧
      (processFeedbackComment today ts q comment cfg base none parse).improved = false ∧
      (processFeedbackComment today ts q comment cfg base none parse).promptCfg = cfg ∧
      (processFeedbackComment today ts q comment cfg base none parse).stored = false ∧
      (processFeedbackComment today ts q comment cfg base none parse).quota.count =
        (checkNewDay today q).count) ∧
    (∀ s, parse (jsTrim (stripCodeFences s)) = none →
      (processFeedbackComment today ts q comment cfg base (some s) parse).improved = true ∧
      (processFeedbackComment today ts q comment cfg base (some s) parse).stored = true ∧
      (processFeedbackComment today ts q comment cfg base (some s) parse).promptCfg.prompt =
        some (strOr cfg.prompt base ++
          improvementSection ts "user feedback" ⟨some "general", some comment⟩)) := by
  have hcan : ¬((canImprove today q).1 = false) := by
    unfold canImprove
    dsimp only
    simp only [decide_eq_false_iff_not, not_not, not_lt]
    omega
  constructor
  · have hgen : generateImprovement "feedback" comment none parse = none := by
      unfold generateImprovement
      rw [if_neg (by simp)]
    rw [processFeedbackComment_genFailed today ts comment base q cfg none parse hcan hgen]
    exact ⟨rfl, rfl, rfl, rfl, rfl⟩
  · intro s hparse
    have hgen : generateImprovement "feedback" comment (some s) parse =
        some ⟨some "general", some comment⟩ := by
      unfold generateImprovement
      rw [if_neg (by simp)]
      dsimp only
      rw [hparse]
    rw [processFeedbackComment_success today ts comment base q cfg (some s) parse
      ⟨some "general", some comment⟩ hcan hgen]
    refine ⟨rfl, rfl, ?_⟩
    show some (applyImprovement (strOr cfg.prompt base)
      (some ⟨some "general", some comment⟩) "user feedback" ts) = _
    simp only [applyImprovement]
    rw [if_neg (by simp [strTruthy, hcomment])]

/-- Witness for `generation_failure_vs_unparsable` at a concrete quota
and comment. -/
theorem generation_failure_vs_unparsable_witness :
    (processFeedbackComment "2026-10-11" "T" ⟨0, some "2026-10-11"⟩ "warmer"
      defaultPromptCfg "BASE" none (fun _ => none)).reason = some "generation_failed" ∧
    (processFeedbackComment "2026-10-11" "T" ⟨0, some "2026-10-11"⟩ "warmer"
      defaultPromptCfg "BASE" (some "not json") (fun _ => none)).improved = true := by
  have h := generation_failure_vs_unparsable "2026-10-11" "T" "warmer" "BASE"
    ⟨0, some "2026-10-11"⟩ defaultPromptCfg (fun _ => none) (by decide) (by decide)
  exact ⟨h.1.1, (h.2 "not json" rfl).1⟩

/-- C6 counterexample: unparsable Capability Client output does not yield
`GenerationFailed` — the fallback improvement is applied, the stored
prompt is mutated, and the result is reported as improved. -/
theorem unparsable_output_still_improves_counterexample :
    (let r := processFeedbackComment "2026-10-11" "T" ⟨0, some "2026-10-11"⟩ "warmer"
      defaultPromptCfg "BASE" (some "not json at all") (fun _ => none)
     r.improved = true ∧
     r.reason ≠ some "generation_failed" ∧
     r.promptCfg ≠ defaultPromptCfg ∧
     r.stored = true) := by
  decide

theorem str_empty_append (a : String) : "" ++ a = a := by
  apply String.ext
  rw [String.data_append]
  rfl

theorem str_join_cons (a : String) (l : List String) :
    String.join (a :: l) = a ++ String.join l := by
  have gen : ∀ (l : List String) (x y : String),
      List.foldl (fun r s => r ++ s) (x ++ y) l = x ++ List.foldl (fun r s => r ++ s) y l := by
    intro l
    induction l with
    | nil => intro x y; rfl
    | cons h t ih =>
      intro x y
      show List.foldl _ ((x ++ y) ++ h) t = _
      rw [String.append_assoc, ih]
      rfl
  show List.foldl (fun r s => r ++ s) ("" ++ a) l = a ++ String.join l
  rw [str_empty_append]
  have := gen l a ""
  rw [String.append_empty] at this
  exact this

theorem applyImprovement_truthy (prompt : String) (i : Improvement) (source ts : String)
    (h : strTruthy i.improvement = true) :
    applyImprovement prompt (some i) source ts = prompt ++ improvementSection ts source i := by
  simp only [applyImprovement]
  rw [if_neg (by simp [h])]

theorem applyAll_nil (base : String) : applyAll base [] = base := rfl

theorem applyAll_cons (base : String) (s : PatchStep) (l : List PatchStep) :
    applyAll base (s :: l) =
      applyAll (applyImprovement base (some s.imp) s.source s.ts) l := rfl

theorem applyAll_eq_append (base : String) (l : List PatchStep)
    (h : ∀ s ∈ l, strTruthy s.imp.improvement = true) :
    applyAll base l = base ++ String.join (l.map sectionOf) := by
  induction l generalizing base with
  | nil => rw [applyAll_nil]; exact (String.append_empty base).symm
  | cons s t ih =>
    rw [applyAll_cons, applyImprovement_truthy base s.imp s.source s.ts
      (h s (List.mem_cons_self s t))]
    rw [ih _ (fun x hx => h x (List.mem_cons_of_mem s hx))]
    rw [List.map_cons, str_join_cons, String.append_assoc]
    rfl

theorem applyAll_extends (base : String) (l : List PatchStep) :
    ∃ t, base ++ t = applyAll base l := by
  induction l generalizing base with
  | nil => exact ⟨"", String.append_empty base⟩
  | cons s t ih =>
    rw [applyAll_cons]
    generalize hy : applyImprovement base (some s.imp) s.source s.ts = y
    obtain ⟨u, hu⟩ := ih y
    have h2 : y = base ∨ y = base ++ improvementSection s.ts s.source s.imp := by
      rw [← hy]
      simp only [applyImprovement]
      split
      · exact Or.inl rfl
      · exact Or.inr rfl
    rcases h2 with h2 | h2
    · subst h2
      exact ⟨u, hu⟩
    · subst h2
      refine ⟨improvementSection s.ts s.source s.imp ++ u, ?_⟩
      rw [← String.append_assoc]
      exact hu

theorem sectionOf_ts_inj (s1 s2 : PatchStep)
    (hlen : s1.ts.length = s2.ts.length) (heq : sectionOf s1 = sectionOf s2) :
    s1.ts = s2.ts := by
  have hd : ("\n\n[IMPROVED ".data ++ (s1.ts.data ++
      ("]\nBased on " ++ s1.source ++ ": \"" ++ strOr s1.imp.issue "general" ++
        "\"\nAction: " ++ s1.imp.improvement.getD "" ++ "\n[/IMPROVED]\n").data)) =
      ("\n\n[IMPROVED ".data ++ (s2.ts.data ++
      ("]\nBased on " ++ s2.source ++ ": \"" ++ strOr s2.imp.issue "general" ++
        "\"\nAction: " ++ s2.imp.improvement.getD "" ++ "\n[/IMPROVED]\n").data)) := by
    have := congrArg String.data heq
    simp only [sectionOf, improvementSection, String.data_append, List.append_assoc] at this
    simpa [String.data_append, List.append_assoc] using this
  have hd2 := List.append_cancel_left hd
  have hlen' : s1.ts.data.length = s2.ts.data.length := hlen
  exact String.ext (List.append_inj hd2 hlen').1

theorem sections_nodup (l : List PatchStep)
    (hlen : ∀ s ∈ l, s.ts.length = 24)
    (hnodup : (l.map PatchStep.ts).Nodup) :
    (l.map sectionOf).Nodup := by
  rw [List.Nodup, List.pairwise_map] at hnodup ⊢
  refine hnodup.imp_of_mem ?_
  intro a b ha hb hne heq
  exact hne (sectionOf_ts_inj a b ((hlen a ha).trans (hlen b hb).symm) heq)

/--
C5: after a sequence of successful improvements the stored instruction
text is exactly the base followed by the appended patch sections, the
text before each improvement is a prefix of the text after it (nothing is
overwritten), each section carries its own timestamp and trigger source,
and for distinct ISO timestamps the appended sections are pairwise
distinct — `N` improvements leave `N` distinct sections.
-/
theorem instruction_text_append_only (base : String) (l : List PatchStep)
    (htruthy : ∀ s ∈ l, strTruthy s.imp.improvement = true)
    (hlen : ∀ s ∈ l, s.ts.length = 24)
    (hnodup : (l.map PatchStep.ts).Nodup) :
    applyAll base l = base ++ String.join (l.map sectionOf) ∧
    (∀ k, ∃ t, applyAll base (l.take k) ++ t = applyAll base l) ∧
    (∀ s ∈ l, (∃ u v, u ++ (s.ts ++ v) = sectionOf s) ∧
      (∃ u v, u ++ (s.source ++ v) = sectionOf s)) ∧
    (l.map sectionOf).Nodup ∧
    (l.map sectionOf).length = l.length := by
  refine ⟨applyAll_eq_append base l htruthy, ?_, ?_, sections_nodup l hlen hnodup,
    List.length_map l sectionOf⟩
  · intro k
    have hsplit : applyAll base l = applyAll (applyAll base (l.take k)) (l.drop k) := by
      unfold applyAll
      rw [← List.foldl_append, List.take_append_drop]
    obtain ⟨t, ht⟩ := applyAll_extends (applyAll base (l.take k)) (l.drop k)
    exact ⟨t, by rw [ht, ← hsplit]⟩
  · intro s _
    constructor
    · refine ⟨"\n\n[IMPROVED ",
        "]\nBased on " ++ s.source ++ ": \"" ++ strOr s.imp.issue "general" ++
          "\"\nAction: " ++ s.imp.improvement.getD "" ++ "\n[/IMPROVED]\n", ?_⟩
      simp [sectionOf, improvementSection, String.append_assoc]
    · refine ⟨"\n\n[IMPROVED " ++ s.ts ++ "]\nBased on ",
        ": \"" ++ strOr s.imp.issue "general" ++
          "\"\nAction: " ++ s.imp.improvement.getD "" ++ "\n[/IMPROVED]\n", ?_⟩
      simp [sectionOf, improvementSection, String.append_assoc]

/-- Witness for `instruction_text_append_only` on two concrete patches. -/
theorem instruction_text_append_only_witness :
    applyAll "BASE"
      [⟨"2026-10-11T00:00:00.000Z", "user feedback", ⟨some "tone", some "warmer"⟩⟩,
       ⟨"2026-10-11T00:00:01.000Z", "evaluation", ⟨some "clarity", some "shorter"⟩⟩] =
      "BASE" ++ String.join
        [sectionOf ⟨"2026-10-11T00:00:00.000Z", "user feedback", ⟨some "tone", some "warmer"⟩⟩,
         sectionOf ⟨"2026-10-11T00:00:01.000Z", "evaluation", ⟨some "clarity", some "shorter"⟩⟩] ∧
    (List.map sectionOf
      [⟨"2026-10-11T00:00:00.000Z", "user feedback", ⟨some "tone", some "warmer"⟩⟩,
       (⟨"2026-10-11T00:00:01.000Z", "evaluation", ⟨some "clarity", some "shorter"⟩⟩ : PatchStep)]).Nodup := by
  have h := instruction_text_append_only "BASE"
    [⟨"2026-10-11T00:00:00.000Z", "user feedback", ⟨some "tone", some "warmer"⟩⟩,
     ⟨"2026-10-11T00:00:01.000Z", "evaluation", ⟨some "clarity", some "shorter"⟩⟩]
    (by decide) (by decide) (by decide)
  exact ⟨h.1, h.2.2.2.1⟩

theorem sumFor_append (name : String) (l : List (String × ℚ)) (s : String × ℚ) :
    sumFor name (l ++ [s]) = sumFor name l + (if s.1 = name then s.2 else 0) := by
  unfold sumFor
  rw [List.filter_append, List.map_append, List.sum_append]
  by_cases h : s.1 = name
  · simp [h]
  · simp [h]

theorem countFor_append (name : String) (l : List (String × ℚ)) (s : String × ℚ) :
    countFor name (l ++ [s]) = countFor name l + (if s.1 = name then 1 else 0) := by
  unfold countFor
  rw [List.filter_append, List.length_append]
  by_cases h : s.1 = name
  · simp [h]
  · simp [h]

/-- Invariant of the metric-accumulation fold of `fetchAndAverageScores`:
every entry holds the sum and the positive count of its metric's values,
and a key is present exactly when the metric has at least one value. -/
theorem addScore_foldl_invariant (flat : List (String × ℚ)) :
    (∀ x ∈ flat.foldl (fun acc s => addScore acc s.1 s.2) [],
      x.2.1 = sumFor x.1 flat ∧ x.2.2 = countFor x.1 flat ∧ 0 < x.2.2) ∧
    (∀ name, (flat.foldl (fun acc s => addScore acc s.1 s.2) []).any
      (fun e => e.1 = name) = true ↔ 0 < countFor name flat) := by
  induction flat using List.reverseRecOn with
  | nil =>
    constructor
    · intro x hx
      exact absurd hx (List.not_mem_nil x)
    · intro name
      simp [countFor]
  | append_singleton l s ih =>
    rw [List.foldl_append]
    obtain ⟨ihmem, ihkey⟩ := ih
    set F := l.foldl (fun acc s => addScore acc s.1 s.2) [] with hF
    rw [show List.foldl (fun acc s => addScore acc s.1 s.2) F [s] = addScore F s.1 s.2 from rfl]
    by_cases hkey : F.any (fun e => e.1 = s.1) = true
    · have haddeq : addScore F s.1 s.2 =
          F.map (fun e => if e.1 = s.1 then (e.1, e.2.1 + s.2, e.2.2 + 1) else e) := by
        unfold addScore
        rw [if_pos]
        simpa using hkey
      constructor
      · intro x hx
        rw [haddeq, List.mem_map] at hx
        obtain ⟨e, he, hex⟩ := hx
        obtain ⟨h1, h2, h3⟩ := ihmem e he
        by_cases hc : e.1 = s.1
        · rw [if_pos hc] at hex
          subst hex
          refine ⟨?_, ?_, Nat.succ_pos _⟩
          · rw [sumFor_append, if_pos hc.symm, h1, hc]
          · rw [countFor_append, if_pos hc.symm, h2, hc]
        · rw [if_neg hc] at hex
          subst hex
          refine ⟨?_, ?_, h3⟩
          · rw [sumFor_append, if_neg (fun hh => hc hh.symm), h1, add_zero]
          · rw [countFor_append, if_neg (fun hh => hc hh.symm), h2, Nat.add_zero]
      · intro name
        rw [haddeq, countFor_append]
        have hany : (F.map (fun e => if e.1 = s.1 then (e.1, e.2.1 + s.2, e.2.2 + 1) else e)).any
            (fun e => e.1 = name) = F.any (fun e => e.1 = name) := by
          rw [List.any_map]
          congr 1
          funext e
          by_cases hc : e.1 = s.1 <;> simp [hc]
        rw [hany]
        by_cases hn : s.1 = name
        · rw [if_pos hn]
          constructor
          · intro _
            omega
          · intro _
            rw [← hn]
            exact hkey
        · rw [if_neg hn, Nat.add_zero]
          exact ihkey name
    · have haddeq : addScore F s.1 s.2 = F ++ [(s.1, s.2, 1)] := by
        unfold addScore
        rw [if_neg]
        simpa using hkey
      constructor
      · intro x hx
        rw [haddeq, List.mem_append] at hx
        rcases hx with hx | hx
        · obtain ⟨h1, h2, h3⟩ := ihmem x hx
          have hxne : ¬(s.1 = x.1) := by
            intro hh
            apply hkey
            rw [List.any_eq_true]
            exact ⟨x, hx, by simp [hh.symm]⟩
          refine ⟨?_, ?_, h3⟩
          · rw [sumFor_append, if_neg hxne, h1, add_zero]
          · rw [countFor_append, if_neg hxne, h2, Nat.add_zero]
        · rw [List.mem_singleton] at hx
          subst hx
          have hzero : countFor s.1 l = 0 := by
            by_contra hz
            have := (ihkey s.1).2 (Nat.pos_of_ne_zero hz)
            exact hkey this
          refine ⟨?_, ?_, Nat.one_pos⟩
          · have : sumFor s.1 l = 0 := by
              unfold sumFor at *
              unfold countFor at hzero
              rw [List.length_eq_zero] at hzero
              rw [hzero]
              rfl
            rw [sumFor_append, if_pos rfl, this, zero_add]
          · rw [countFor_append, if_pos rfl, hzero, Nat.zero_add]
      · intro name
        rw [haddeq, countFor_append, List.any_append]
        by_cases hn : s.1 = name
        · simp [hn]
        · rw [if_neg hn, Nat.add_zero]
          simp only [List.any_cons, List.any_nil, Bool.or_false]
          rw [Bool.or_eq_true]
          constructor
          · intro hh
            rcases hh with hh | hh
            · exact (ihkey name).1 hh
            · exact absurd (by simpa using hh) hn
          · intro hh
            exact Or.inl ((ihkey name).2 hh)

/-- The averages returned by `fetchAndAverageScores` are the arithmetic
means of each metric's kept scores over the traces matching the pair. -/
theorem fetchAndAverageScores_mean (style language : String)
    (traces : List EvalTrace) (averages : List (String × ℚ))
    (h : fetchAndAverageScores style language traces = some averages) :
    ∀ p ∈ averages,
      0 < countFor p.1 (matchingFlat style language traces) ∧
      p.2 = sumFor p.1 (matchingFlat style language traces) /
        (countFor p.1 (matchingFlat style language traces) : ℚ) := by
  unfold fetchAndAverageScores at h
  dsimp only at h
  split at h
  · exact absurd h (by simp)
  · rw [Option.some.injEq] at h
    subst h
    intro p hp
    rw [List.mem_map] at hp
    obtain ⟨e, he, hep⟩ := hp
    have hinv := (addScore_foldl_invariant (matchingFlat style language traces)).1 e he
    subst hep
    exact ⟨by rw [← hinv.2.1]; exact hinv.2.2, by rw [hinv.1, hinv.2.1]⟩

theorem generateImprovement_evaluation_some (fallback : String) (resp : Option String)
    (parse : String → Option Improvement) (h : resp ≠ none) :
    ∃ imp, generateImprovement "evaluation" fallback resp parse = some imp := by
  unfold generateImprovement
  rw [if_neg (by simp)]
  cases hr : resp with
  | none => exact absurd hr h
  | some t =>
    dsimp only
    cases parse (jsTrim (stripCodeFences t)) with
    | none => exact ⟨_, rfl⟩
    | some imp => exact ⟨_, rfl⟩

/-- With today's quota not yet exhausted for the whole list, a responsive
client lets the improvement loop of `shouldEvaluateAndImprove` apply one
improvement per low metric, each consuming one quota unit and one client
call. -/
theorem evalLoop_run (today ts : String) (resp : String → Option String)
    (parse : String → Option Improvement) (fmt : ℚ → String)
    (lm : List (String × ℚ)) (st : EvalState)
    (hdate : st.quota.date = some today)
    (hcount : st.quota.count + lm.length ≤ MAX_IMPROVEMENTS_PER_DAY)
    (hresp : ∀ p ∈ lm, resp p.1 ≠ none) :
    (evalLoop today ts resp parse fmt lm st).applied = st.applied ++ lm.map Prod.fst ∧
    (evalLoop today ts resp parse fmt lm st).quota.count = st.quota.count + lm.length ∧
    (evalLoop today ts resp parse fmt lm st).quota.date = some today ∧
    (evalLoop today ts resp parse fmt lm st).llmCalls = st.llmCalls + lm.length := by
  induction lm generalizing st with
  | nil =>
    refine ⟨?_, rfl, hdate, rfl⟩
    show st.applied = st.applied ++ []
    rw [List.append_nil]
  | cons p rest ih =>
    obtain ⟨metric, score⟩ := p
    have hq' : checkNewDay today st.quota = st.quota := by
      unfold checkNewDay
      rw [if_neg (by simp [hdate])]
    have hc1 : (canImprove today st.quota).1 = true := by
      unfold canImprove
      dsimp only
      rw [hq']
      simp only [decide_eq_true_eq]
      have := hcount
      simp only [List.length_cons] at this
      omega
    have hc2 : (canImprove today st.quota).2 = st.quota := by
      unfold canImprove
      dsimp only
      rw [hq']
    obtain ⟨imp, hgen⟩ := generateImprovement_evaluation_some "[object Object]"
      (resp metric) parse (hresp (metric, score) (List.mem_cons_self _ _))
    show ((evalLoop today ts resp parse fmt ((metric, score) :: rest) st).applied = _) ∧ _
    unfold evalLoop
    dsimp only
    rw [hc1]
    rw [if_neg (by simp)]
    rw [hgen, hc2]
    obtain ⟨ha, hcnt, hdt, hllm⟩ := ih
      { prompt := applyImprovement st.prompt
          (some { issue := some ("[AvgEval " ++ metric ++ ": " ++ fmt score ++ "]"),
                  improvement := imp.improvement }) "evaluation" ts,
        quota := recordImprovement st.quota, llmCalls := st.llmCalls + 1,
        applied := st.applied ++ [metric] }
      (by simpa [recordImprovement] using hdate)
      (by simp only [recordImprovement, List.length_cons] at hcount ⊢; omega)
      (fun x hx => hresp x (List.mem_cons_of_mem _ hx))
    refine ⟨?_, ?_, hdt, ?_⟩
    · rw [ha]
      simp [List.append_assoc]
    · rw [hcnt]
      simp only [recordImprovement, List.length_cons]
      omega
    · rw [hllm]
      simp only [List.length_cons]
      omega

/--
C7 (amended): the evaluation cadence is driven by a single global message
counter shared by all style/language pairs — every relayed message
increments it and the evaluation branch is entered exactly when the
incremented global counter is a multiple of `SCORE_CHECK_INTERVAL = 10`,
evaluating the pair of that message.  The averages are the per-metric
arithmetic means of the kept scores of the traces (among the globally
fetched recent traces) matching the pair, and on a cadence hit with
enough quota and a responsive client one improvement is applied for every
metric below the threshold — not just the worst one — each consuming one
quota unit.
-/
theorem metric_evaluation_global_cadence (st : Nat)
    (today ts style language base : String) (q : Quota)
    (traces : List EvalTrace) (cfg : PromptCfg)
    (resp : String → Option String) (parse : String → Option Improvement)
    (fmt : ℚ → String) :
    (shouldEvaluateAndImprove st today ts style language q traces cfg base
      resp parse fmt).messageCount = st + 1 ∧
    (shouldEvaluateAndImprove st today ts style language q traces cfg base
      resp parse fmt).cadenceHit = decide ((st + 1) % SCORE_CHECK_INTERVAL = 0) ∧
    (∀ averages, fetchAndAverageScores style language traces = some averages →
      ∀ p ∈ averages,
        0 < countFor p.1 (matchingFlat style language traces) ∧
        p.2 = sumFor p.1 (matchingFlat style language traces) /
          (countFor p.1 (matchingFlat style language traces) : ℚ)) ∧
    (∀ averages, (st + 1) % SCORE_CHECK_INTERVAL = 0 →
      q.date = some today →
      fetchAndAverageScores style language traces = some averages →
      (averages.filter fun p => p.2 < EVAL_THRESHOLD) ≠ [] →
      q.count + (averages.filter fun p => p.2 < EVAL_THRESHOLD).length ≤
        MAX_IMPROVEMENTS_PER_DAY →
      (∀ p ∈ averages.filter fun p => p.2 < EVAL_THRESHOLD, resp p.1 ≠ none) →
      (shouldEvaluateAndImprove st today ts style language q traces cfg base
        resp parse fmt).appliedMetrics =
        (averages.filter fun p => p.2 < EVAL_THRESHOLD).map Prod.fst ∧
      (shouldEvaluateAndImprove st today ts style language q traces cfg base
        resp parse fmt).quota.count =
        q.count + (averages.filter fun p => p.2 < EVAL_THRESHOLD).length ∧
      (shouldEvaluateAndImprove st today ts style language q traces cfg base
        resp parse fmt).llmCalls =
        (averages.filter fun p => p.2 < EVAL_THRESHOLD).length ∧
      (shouldEvaluateAndImprove st today ts style language q traces cfg base
        resp parse fmt).stored = true) := by
  refine ⟨?_, ?_, fun a ha => fetchAndAverageScores_mean style language traces a ha, ?_⟩
  · unfold shouldEvaluateAndImprove
    dsimp only
    repeat' split
    all_goals rfl
  · by_cases h : (st + 1) % SCORE_CHECK_INTERVAL = 0
    · unfold shouldEvaluateAndImprove
      dsimp only
      rw [if_neg (not_not_intro h)]
      rw [decide_eq_true h]
      repeat' split
      all_goals rfl
    · unfold shouldEvaluateAndImprove
      dsimp only
      rw [if_pos h]
      simp [h]
  · intro averages hst hdate hfetch hne hcount hresp
    have hq' : checkNewDay today q = q := by
      unfold checkNewDay
      rw [if_neg (by simp [hdate])]
    have hc1 : (canImprove today q).1 = true := by
      unfold canImprove
      dsimp only
      rw [hq']
      simp only [decide_eq_true_eq]
      have h1 : 1 ≤ (averages.filter fun p => p.2 < EVAL_THRESHOLD).length := by
        cases hl : averages.filter fun p => p.2 < EVAL_THRESHOLD with
        | nil => exact absurd hl hne
        | cons a l => simp
      omega
    have hc2 : (canImprove today q).2 = q := by
      unfold canImprove
      dsimp only
      rw [hq']
    have hemp : ¬((averages.filter fun p => p.2 < EVAL_THRESHOLD).isEmpty = true) := by
      simp only [List.isEmpty_iff]
      exact hne
    unfold shouldEvaluateAndImprove
    dsimp only
    rw [if_neg (not_not_intro hst), hc1, if_neg (by simp), hfetch]
    dsimp only
    rw [if_neg hemp, hc2]
    obtain ⟨ha, hcnt, _, hllm⟩ := evalLoop_run today ts resp parse fmt
      (averages.filter fun p => p.2 < EVAL_THRESHOLD)
      { prompt := strOr cfg.prompt base, quota := q, llmCalls := 0, applied := [] }
      hdate hcount hresp
    refine ⟨?_, hcnt, ?_, rfl⟩
    · rw [ha]
      rfl
    · rw [hllm]
      exact Nat.zero_add _

/-- Witness for `metric_evaluation_global_cadence`: at global count 9, a
single matching trace with one zero score for metric `tone` triggers one
applied improvement consuming one quota unit. -/
theorem metric_evaluation_global_cadence_witness :
    (shouldEvaluateAndImprove 9 "d" "t" "friendly" "en" ⟨0, some "d"⟩
      [⟨"stylize", "friendly", "en", [("tone", 0)]⟩] defaultPromptCfg "B"
      (fun _ => some "x") (fun _ => none) (fun _ => "0.00")).appliedMetrics = ["tone"] ∧
    (shouldEvaluateAndImprove 9 "d" "t" "friendly" "en" ⟨0, some "d"⟩
      [⟨"stylize", "friendly", "en", [("tone", 0)]⟩] defaultPromptCfg "B"
      (fun _ => some "x") (fun _ => none) (fun _ => "0.00")).quota.count = 1 ∧
    (shouldEvaluateAndImprove 9 "d" "t" "friendly" "en" ⟨0, some "d"⟩
      [⟨"stylize", "friendly", "en", [("tone", 0)]⟩] defaultPromptCfg "B"
      (fun _ => some "x") (fun _ => none) (fun _ => "0.00")).llmCalls = 1 := by
  have hfetch : fetchAndAverageScores "friendly" "en"
      [⟨"stylize", "friendly", "en", [("tone", 0)]⟩] = some [("tone", 0)] := by
    simp +decide [fetchAndAverageScores, keptScores, addScore, strContains]
  have hfilter : (List.filter (fun p => decide (p.2 < EVAL_THRESHOLD))
      [(("tone" : String), (0 : ℚ))]) = [("tone", 0)] := by
    norm_num [EVAL_THRESHOLD]
  have h := (metric_evaluation_global_cadence 9 "d" "t" "friendly" "en" "B"
    ⟨0, some "d"⟩ [⟨"stylize", "friendly", "en", [("tone", 0)]⟩] defaultPromptCfg
    (fun _ => some "x") (fun _ => none) (fun _ => "0.00")).2.2.2
    [("tone", 0)] (by decide) rfl hfetch (by rw [hfilter]; decide)
    (by rw [hfilter]; decide) (by rw [hfilter]; intro p hp; simp)
  obtain ⟨h1, h2, h3, _⟩ := h
  rw [hfilter] at h1 h2 h3
  refine ⟨?_, ?_, ?_⟩
  · rw [h1]
    rfl
  · rw [h2]
    rfl
  · rw [h3]
    rfl

/-- C7 counterexample: the cadence is a global message counter, not a
per-pair one.  Nine relayed messages of pair `(friendly, en)` bring the
global counter to 9; the tenth message — the *first* of pair
`(formal, ru)` — triggers an evaluation for that pair (1 is not a
multiple of 10), while a later `(friendly, en)` message arriving at
global count 10 (which could be that pair's own tenth) does not. -/
theorem per_pair_cadence_counterexample :
    ((List.range 9).foldl
      (fun s _ => (shouldEvaluateAndImprove s "d" "t" "friendly" "en" ⟨0, some "d"⟩ []
        defaultPromptCfg "B" (fun _ => none) (fun _ => none) (fun _ => "")).messageCount)
      0 = 9) ∧
    (shouldEvaluateAndImprove 9 "d" "t" "formal" "ru" ⟨0, some "d"⟩ []
      defaultPromptCfg "B" (fun _ => none) (fun _ => none) (fun _ => "")).cadenceHit = true ∧
    1 % SCORE_CHECK_INTERVAL ≠ 0 ∧
    (shouldEvaluateAndImprove 10 "d" "t" "friendly" "en" ⟨0, some "d"⟩ []
      defaultPromptCfg "B" (fun _ => none) (fun _ => none) (fun _ => "")).cadenceHit = false := by
  decide

end Facilitator
